import Mathlib

/-
Verification of the wrestledata / WrestleRank relationship-and-ranking
subsystem against its specification.

The repository snapshot contains the React frontend (WrestlerPage.jsx and
friends), the CLI wrapper scripts, the README and the informal power-ranking
document, and the embedded import_rankings.py script.  The Python core
modules referenced by the CLI (wrestlerank/matrix/relationship_manager.py,
wrestlerank/ranking/optimal_ranker.py and the power-score code) are not in
the snapshot; those parts are modelled from the specification, as flagged on
each definition.  Frontend and import-script behaviour is embedded directly
from the JavaScript / Python sources.

Numbers: scores and edge weights are rationals (ℚ); ranks, counts and
identifiers are naturals; match and wrestler identifiers on the frontend
side are strings, matching the sources.
-/

/-! ### Power Score Engine (spec §4.2, informal power-ranking document) -/

/-- Modelled from the spec: the result types of a match
(`resultType ∈ {Decision, MajorDecision, TechFall, Fall}`, spec §3);
the scoring code that consumes them is not in the repository snapshot. -/
inductive ResultType
  | decision
  | majorDecision
  | techFall
  | fall
deriving DecidableEq

/-- Modelled from the spec: the tunable `ScoreModifiers` configuration
`{qualityWin, qualityLoss, bonus, pin, badLoss, consistency}` (spec §4.2);
the scoring code is not in the repository snapshot. -/
structure ScoreModifiers where
  qualityWin : ℚ
  qualityLoss : ℚ
  bonus : ℚ
  pin : ℚ
  badLoss : ℚ
  consistency : ℚ
deriving DecidableEq

/-- Modelled from the spec: the default modifier values
`{1.0, 0.6, 0.4, 0.8, 1.2, 0.25}` (spec §4.2). -/
def defaultModifiers : ScoreModifiers :=
  { qualityWin := 1
    qualityLoss := 3/5
    bonus := 2/5
    pin := 4/5
    badLoss := 6/5
    consistency := 1/4 }

/-- Modelled from the spec: the per-match scoring input (spec §4.2): the
scored wrestler's rank R, the opponent rank O (lower number = better),
whether the scored wrestler won, the result type, and the score margin. -/
structure ScoreMatch where
  isWin : Bool
  resultType : ResultType
  wrestlerRank : ℕ
  oppRank : ℕ
  margin : ℕ
deriving DecidableEq

/-- Modelled from the spec: Quality Win (win only):
`qualityWin * (max(0, O − R) + 1)` (spec §4.2); the scoring code is not in
the repository snapshot. -/
def qualityWinScore (mods : ScoreModifiers) (m : ScoreMatch) : ℚ :=
  if m.isWin then
    mods.qualityWin * (max 0 ((m.oppRank : ℚ) - (m.wrestlerRank : ℚ)) + 1)
  else 0

/-- Modelled from the spec: Competitive Loss (loss only, non-fall,
margin ≤ 3 if decision): `qualityLoss * max(0, R − O)`; zero if margin > 7
or result is a fall (spec §4.2).  The scoring code is not in the repository
snapshot; the margin > 7 cutoff applies to every non-fall loss, so a
blowout (major-decision or tech-fall) loss earns nothing. -/
def competitiveLossScore (mods : ScoreModifiers) (m : ScoreMatch) : ℚ :=
  if m.isWin then 0
  else if m.resultType = ResultType.fall then 0
  else if 7 < m.margin then 0
  else if m.resultType = ResultType.decision ∧ 3 < m.margin then 0
  else mods.qualityLoss * max 0 ((m.wrestlerRank : ℚ) - (m.oppRank : ℚ))

/-- Modelled from the spec: Bonus credit by result type, accruing to the
winner — MajorDecision `+1*bonus`, TechFall `+2*bonus`, Fall `+1*pin`
(spec §4.2); the scoring code is not in the repository snapshot. -/
def bonusScore (mods : ScoreModifiers) (m : ScoreMatch) : ℚ :=
  if m.isWin then
    match m.resultType with
    | ResultType.decision => 0
    | ResultType.majorDecision => mods.bonus
    | ResultType.techFall => 2 * mods.bonus
    | ResultType.fall => mods.pin
  else 0

/-- Modelled from the spec: Consistency penalty (win only, margin ≤ 2,
O − R ≥ 10): `consistency * (O − R)`, subtracted from the total
(spec §4.2); the scoring code is not in the repository snapshot. -/
def consistencyScore (mods : ScoreModifiers) (m : ScoreMatch) : ℚ :=
  if m.isWin ∧ m.margin ≤ 2 ∧ 10 ≤ (m.oppRank : ℤ) - (m.wrestlerRank : ℤ) then
    mods.consistency * ((m.oppRank : ℚ) - (m.wrestlerRank : ℚ))
  else 0

/-- Modelled from the spec: Bad Loss penalty (loss only, O − R ≥ 10):
`badLoss * (O − R)`, subtracted (spec §4.2); the scoring code is not in the
repository snapshot. -/
def badLossScore (mods : ScoreModifiers) (m : ScoreMatch) : ℚ :=
  if ¬m.isWin ∧ 10 ≤ (m.oppRank : ℤ) - (m.wrestlerRank : ℤ) then
    mods.badLoss * ((m.oppRank : ℚ) - (m.wrestlerRank : ℚ))
  else 0

/-- Modelled from the spec: per-match total
`QualityWin + CompetitiveLoss + Bonus − Consistency − BadLoss` (spec §4.2). -/
def matchScore (mods : ScoreModifiers) (m : ScoreMatch) : ℚ :=
  qualityWinScore mods m + competitiveLossScore mods m + bonusScore mods m
    - consistencyScore mods m - badLossScore mods m

/-- Modelled from the spec: total power score = sum over all matches
(spec §4.2, `compute_power_scores`). -/
def powerScore (mods : ScoreModifiers) (ms : List ScoreMatch) : ℚ :=
  (ms.map (matchScore mods)).sum

/-- Concrete loss used against claim C7: a loss by major decision with
margin 10, wrestler ranked 8, opponent ranked 2. -/
def blowoutLoss : ScoreMatch :=
  { isWin := false
    resultType := ResultType.majorDecision
    wrestlerRank := 8
    oppRank := 2
    margin := 10 }

/-- Concrete loss used as witness input for the amended claim C7: a close
decision loss (margin 3), wrestler ranked 8, opponent ranked 2. -/
def closeLoss : ScoreMatch :=
  { isWin := false
    resultType := ResultType.decision
    wrestlerRank := 8
    oppRank := 2
    margin := 3 }

/-! ### Frontend wrestler page (src/frontend/src/components/WrestlerPage.jsx) -/

/-- A match row as read from the `matches` table by the frontend
(WrestlerPage.jsx): `match_id`, `winner_id`, `loser_id` and the match date
(modelled as the timestamp value that `new Date(...)` yields). -/
structure DbMatch where
  match_id : String
  winner_id : String
  loser_id : String
  date : ℕ
deriving DecidableEq

/-- First-occurrence key order of a JavaScript `Map` built from a keyed
list: keys already seen are dropped (WrestlerPage.jsx line 242,
`new Map(seasonMatches.map(match => [match.match_id, match]))`). -/
def dedupKeys (seen : List String) : List String → List String
  | [] => []
  | k :: ks =>
    if k ∈ seen then dedupKeys seen ks
    else k :: dedupKeys (k :: seen) ks

/-- The value a JavaScript `Map` holds for a key after all insertions: the
last entry of the list with that `match_id` (WrestlerPage.jsx line 242). -/
def pickLast (l : List DbMatch) (k : String) : Option DbMatch :=
  l.foldl (fun acc m => if m.match_id = k then some m else acc) none

/-- The deduplication step of WrestlerPage.jsx lines 241–244:
`Array.from(new Map(seasonMatches.map(m => [m.match_id, m])).values())` —
keys in first-occurrence order, each carrying the last value inserted. -/
def jsMapDedup (l : List DbMatch) : List DbMatch :=
  (dedupKeys [] (l.map (fun m => m.match_id))).filterMap (pickLast l)

/-- The frontend's date comparison: ascending by match date
(WrestlerPage.jsx line 247, `sort((a, b) => new Date(a.date) - new Date(b.date))`). -/
def dateLe (a b : DbMatch) : Prop := a.date ≤ b.date

instance : DecidableRel dateLe := fun a b => Nat.decLe a.date b.date

instance : IsTotal DbMatch dateLe := ⟨fun a b => Nat.le_total a.date b.date⟩

instance : IsTrans DbMatch dateLe := ⟨fun _ _ _ h1 h2 => Nat.le_trans h1 h2⟩

/-- The per-season match list assembled by `fetchWrestlerData`
(WrestlerPage.jsx lines 234–249): filter the combined winner-side and
loser-side query results down to this season wrestler, remove duplicate
`match_id`s via a JavaScript `Map`, and sort ascending by date. -/
def fetchWrestlerMatches (swid : String) (allMatches : List DbMatch) : List DbMatch :=
  List.insertionSort dateLe
    (jsMapDedup (allMatches.filter
      (fun m => m.winner_id == swid || m.loser_id == swid)))

/-- Season statistics as returned by `calculateSeasonStats`
(WrestlerPage.jsx lines 289–299). -/
structure SeasonStats where
  wins : ℕ
  losses : ℤ
  total : ℕ
deriving DecidableEq

/-- `calculateSeasonStats` (WrestlerPage.jsx lines 289–299): wins counts
the matches whose `winner_id` equals this season wrestler's id, total is
the length of the match list, losses = total − wins. -/
def calculateSeasonStats (swid : String) (seasonMatches : List DbMatch) : SeasonStats :=
  let wins := (seasonMatches.filter (fun m => m.winner_id == swid)).length
  let total := seasonMatches.length
  { wins := wins, losses := (total : ℤ) - (wins : ℤ), total := total }

/-! ### Rankings import (import_rankings.py, embedded in run.ps1) -/

/-- ASCII lowercasing of one character, embedding Python's `str.lower` as
used on weight-class strings such as `W132`. -/
def lowerChar (c : Char) : Char :=
  if 'A' ≤ c ∧ c ≤ 'Z' then Char.ofNat (c.toNat + 32) else c

/-- ASCII lowercasing of a string (Python `weight_class.lower()` at
line 101 of import_rankings.py). -/
def lowerStr (s : String) : String := ⟨s.data.map lowerChar⟩

/-- A stored row of the `wrestler_rankings` table
(import_rankings.py lines 148–154). -/
structure RankingRow where
  wrestler_id : String
  weight_class : String
  rank : ℕ
  date : String
deriving DecidableEq

/-- One entry of the imported rankings JSON: optional `wrestler_id` and
optional `rank` (import_rankings.py lines 143–144 use `.get`, so either
may be absent; Python truthiness also drops empty ids and rank 0). -/
def entryRow (wc dateTag : String) (entry : Option String × Option ℕ) : Option RankingRow :=
  match entry with
  | (some w, some rk) =>
    if w ≠ "" ∧ rk ≠ 0 then some { wrestler_id := w, weight_class := wc, rank := rk, date := dateTag }
    else none
  | _ => none

/-- `import_rankings` (import_rankings.py lines 130–180): within one
transaction, delete every existing row for this (lowercased) weight class
and this date tag, then insert the valid entries under that weight class
and date tag.  The date tag is the run's `mmddyy-manual` stamp, passed in
explicitly here since it comes from the clock. -/
def import_rankings (db : List RankingRow) (wcArg : String) (dateTag : String)
    (entries : List (Option String × Option ℕ)) : List RankingRow :=
  let wc := lowerStr wcArg
  db.filter (fun r => !(r.weight_class == wc && r.date == dateTag)) ++
    entries.filterMap (entryRow wc dateTag)

/-- Concrete stored ranking row used against claim C8. -/
def storedRow : RankingRow :=
  { wrestler_id := "w1", weight_class := "w132", rank := 1, date := "030425-manual" }

/-- Concrete database holding one previously stored ranking. -/
def storedDb : List RankingRow := [storedRow]

/-! ### Relationship Graph Builder (spec §4.1, relationship_manager.py
referenced by the README but not in the snapshot) -/

/-- Entity identifiers of the core (spec §3); wrestler ids abstracted as
naturals. -/
abbrev EntityId := ℕ

/-- Modelled from the spec: a match record as the builder consumes it
(spec §3, §4.1): unique match id, weight class, winner and loser;
relationship_manager.py is not in the repository snapshot. -/
structure MatchRec where
  matchId : ℕ
  weightClass : String
  winner : EntityId
  loser : EntityId
deriving DecidableEq

/-- Modelled from the spec: the builder's state for Incremental mode
(spec §4.1, §9): the per-pair `loser → winner` edge weights and the set of
match ids already marked processed; relationship_manager.py is not in the
repository snapshot. -/
structure BuildState where
  weights : List ((EntityId × EntityId) × ℕ)
  processed : List ℕ
deriving DecidableEq

/-- Add weight 1 to the `loser → winner` pair, inserting it at weight 1
when absent (spec §4.1: "add/increment `loser → winner` with weight 1"). -/
def bumpEdge : List ((EntityId × EntityId) × ℕ) → EntityId × EntityId →
    List ((EntityId × EntityId) × ℕ)
  | [], k => [(k, 1)]
  | (k', w) :: rest, k =>
    if k' = k then (k', w + 1) :: rest else (k', w) :: bumpEdge rest k

/-- Modelled from the spec: Incremental-mode handling of one match
(spec §4.1): a match already marked processed is skipped; otherwise its
edge weight is added and the match is marked processed in the same step. -/
def processMatch (s : BuildState) (m : MatchRec) : BuildState :=
  if m.matchId ∈ s.processed then s
  else { weights := bumpEdge s.weights (m.loser, m.winner)
         processed := m.matchId :: s.processed }

/-- Modelled from the spec: `build_relationships` in Incremental mode
(spec §4.1, §6) folded over the match set; relationship_manager.py is not
in the repository snapshot. -/
def build_relationships (s : BuildState) (ms : List MatchRec) : BuildState :=
  ms.foldl processMatch s

/-- Kinds of relationship edges (spec §3). -/
inductive EdgeKind
  | direct
  | commonOpponent
deriving DecidableEq

/-- A relationship edge `loser → winner` with its kind and support count
(spec §3). -/
structure RelEdge where
  loser : EntityId
  winner : EntityId
  kind : EdgeKind
  support : ℕ
deriving DecidableEq

/-- All entities appearing in a match list, in first-win-then-loss scan
order, deduplicated. -/
def matchEntities (ms : List MatchRec) : List EntityId :=
  (ms.map (fun m => m.winner) ++ ms.map (fun m => m.loser)).dedup

/-- Whether some recorded match has winner `a` and loser `b`. -/
def beatsIn (ms : List MatchRec) (a b : EntityId) : Bool :=
  ms.any (fun m => decide (m.winner = a ∧ m.loser = b))

/-- Number of recorded matches with winner `w` and loser `l`
(spec §3: a Direct edge's supportCount is the number of matches). -/
def directCount (ms : List MatchRec) (l w : EntityId) : ℕ :=
  (ms.filter (fun m => decide (m.winner = w ∧ m.loser = l))).length

/-- Whether a direct match exists between `a` and `b` in either direction
(spec §4.1: common-opponent inference only runs for pairs with no direct
edge). -/
def hasDirectMatch (ms : List MatchRec) (a b : EntityId) : Bool :=
  ms.any (fun m =>
    decide ((m.winner = a ∧ m.loser = b) ∨ (m.winner = b ∧ m.loser = a)))

/-- Modelled from the spec: the count of shared opponents X giving the
consistent chain "a beat X and X beat b", the weak signal a > b
(spec §4.1); relationship_manager.py is not in the repository snapshot. -/
def chainSignal (ms : List MatchRec) (a b : EntityId) : ℕ :=
  ((matchEntities ms).filter
    (fun x => decide (x ≠ a ∧ x ≠ b) && beatsIn ms a x && beatsIn ms x b)).length

/-- Modelled from the spec: the net directional signal for a over b —
chains supporting a > b minus chains supporting b > a (spec §4.1:
"accumulate signal counts; materialize an edge only if net signal exceeds
zero, direction = majority signal"). -/
def netSignal (ms : List MatchRec) (a b : EntityId) : ℤ :=
  (chainSignal ms a b : ℤ) - (chainSignal ms b a : ℤ)

/-- Modelled from the spec: the Direct edges of the graph — one
`loser → winner` edge per ordered pair with at least one recorded match,
supportCount = number of matches, no self-loops (spec §3, §4.1). -/
def directEdges (ms : List MatchRec) : List RelEdge :=
  ((matchEntities ms).product (matchEntities ms)).filterMap (fun p =>
    if p.1 ≠ p.2 ∧ 0 < directCount ms p.1 p.2 then
      some { loser := p.1, winner := p.2, kind := EdgeKind.direct
             support := directCount ms p.1 p.2 }
    else none)

/-- Modelled from the spec: the inferred CommonOpponent edges — for each
pair (a, b) with no direct match and positive net signal a > b, the edge
`b → a` (loser b, winner a) with supportCount the net signal (spec §3,
§4.1); relationship_manager.py is not in the repository snapshot. -/
def commonEdges (ms : List MatchRec) : List RelEdge :=
  ((matchEntities ms).product (matchEntities ms)).filterMap (fun p =>
    if p.1 ≠ p.2 ∧ hasDirectMatch ms p.1 p.2 = false ∧ 0 < netSignal ms p.1 p.2 then
      some { loser := p.2, winner := p.1, kind := EdgeKind.commonOpponent
             support := (netSignal ms p.1 p.2).toNat }
    else none)

/-- Modelled from the spec: `build_weight_class_relationships` — rebuild
the direct and common-opponent edges of one weight class (spec §4.1, README
"build-weight-class-relationships"); relationship_manager.py is not in the
repository snapshot. -/
def build_weight_class_relationships (wc : String) (ms : List MatchRec) : List RelEdge :=
  let rel := ms.filter (fun m => m.weightClass == wc)
  directEdges rel ++ commonEdges rel

/-- Four matches over weight class W132 forming the cancelling cycle
A beats X, X beats B, B beats Y, Y beats A, with A = 0, X = 1, B = 2,
Y = 3: used against claim C5. -/
def cycleMatches : List MatchRec :=
  [ { matchId := 1, weightClass := "W132", winner := 0, loser := 1 }
  , { matchId := 2, weightClass := "W132", winner := 1, loser := 2 }
  , { matchId := 3, weightClass := "W132", winner := 2, loser := 3 }
  , { matchId := 4, weightClass := "W132", winner := 3, loser := 0 } ]

/-- Two matches over weight class W132: A (= 0) beats X (= 1) and X beats
B (= 2), with no direct A-vs-B match: witness input for the amended
claim C5. -/
def chainMatches : List MatchRec :=
  [ { matchId := 1, weightClass := "W132", winner := 0, loser := 1 }
  , { matchId := 2, weightClass := "W132", winner := 1, loser := 2 } ]

/-! ### Ranking Optimizer (spec §4.3, optimal_ranker.py referenced by the
README but not in the snapshot) -/

/-- A weighted `loser → winner` edge of the graph the optimizer consumes
(spec §4.3). -/
structure OptEdge where
  loser : EntityId
  winner : EntityId
  weight : ℚ
deriving DecidableEq

/-- Modelled from the spec: the anomaly cost shared by stages 2–4 — the
total weight of edges whose loser is ordered before its winner
(spec §4.3); optimal_ranker.py is not in the repository snapshot. -/
def anomalyCost (g : List OptEdge) (ord : List EntityId) : ℚ :=
  ((g.filter (fun e =>
    decide (ord.indexOf e.loser < ord.indexOf e.winner))).map
      (fun e => e.weight)).sum

/-- PageRank damping factor used by the seed-ordering stage (a modelling
choice; spec §4.3 stage 1 fixes only the iterate-to-convergence shape). -/
def prDamping : ℚ := 85/100

/-- Convergence threshold for the seed-ordering iteration (spec §4.3
stage 1, §7 `OptimizerNonConvergence`). -/
def prEps : ℚ := 1/1000000

/-- Iteration cap for the seed-ordering iteration (spec §4.3 stage 1). -/
def prMaxIter : ℕ := 100

/-- Total outgoing edge weight of an entity. -/
def outWeight (g : List OptEdge) (u : EntityId) : ℚ :=
  ((g.filter (fun e => e.loser == u)).map (fun e => e.weight)).sum

/-- Score of an entity in a score table, defaulting to the initial value 1. -/
def scoreOf (s : List (EntityId × ℚ)) (e : EntityId) : ℚ :=
  ((s.find? (fun p => p.1 == e)).map (fun p => p.2)).getD 1

/-- Initial PageRank score table: every entity at 1. -/
def prInit (es : List EntityId) : List (EntityId × ℚ) :=
  es.map (fun e => (e, 1))

/-- Modelled from the spec: one PageRank-style iteration — incoming
"beat-by-better" weight propagates authority to winners (spec §4.3
stage 1); optimal_ranker.py is not in the repository snapshot. -/
def prStep (g : List OptEdge) (es : List EntityId)
    (s : List (EntityId × ℚ)) : List (EntityId × ℚ) :=
  es.map (fun v =>
    (v, (1 - prDamping) + prDamping *
      ((g.filter (fun e => e.winner == v)).map
        (fun e => e.weight * scoreOf s e.loser / outWeight g e.loser)).sum))

/-- Total absolute score change between two iterations, the convergence
measure of the seed stage. -/
def prDelta (s s' : List (EntityId × ℚ)) : ℚ :=
  ((s.zip s').map (fun p => |p.1.2 - p.2.2|)).sum

/-- Modelled from the spec: iterate the PageRank step until the score
delta falls below the threshold or the iteration cap is hit (spec §4.3
stage 1). -/
def prLoop (g : List OptEdge) (es : List EntityId) :
    ℕ → List (EntityId × ℚ) → List (EntityId × ℚ)
  | 0, s => s
  | n + 1, s =>
    let s' := prStep g es s
    if prDelta s s' < prEps then s' else prLoop g es n s'

/-- The converged (or capped) PageRank score table. -/
def pageRankScores (g : List OptEdge) (es : List EntityId) : List (EntityId × ℚ) :=
  prLoop g es prMaxIter (prInit es)

/-- Whether an entity touches any edge of the graph; isolated entities are
the ones that do not (spec §4.3 failure clause). -/
def touchesGraph (g : List OptEdge) (e : EntityId) : Bool :=
  g.any (fun ed => ed.loser == e || ed.winner == e)

/-- Seed comparison: descending by PageRank score, ties broken ascending
by entity identifier for determinism (spec §4.3 stage 1). -/
def seedRel (s : List (EntityId × ℚ)) (a b : EntityId) : Prop :=
  scoreOf s b < scoreOf s a ∨ (scoreOf s a = scoreOf s b ∧ a ≤ b)

instance (s : List (EntityId × ℚ)) : DecidableRel (seedRel s) := fun _ _ =>
  inferInstanceAs (Decidable (_ ∨ _))

/-- Modelled from the spec: stage 1 seed ordering — entities with edges
sorted descending by stationary score (ties by identifier), isolated
entities appended afterwards in input iteration order (spec §4.3 stage 1
and failure clause); optimal_ranker.py is not in the repository
snapshot. -/
def seed_order (g : List OptEdge) (es : List EntityId) : List EntityId :=
  List.insertionSort (seedRel (pageRankScores g (es.filter (touchesGraph g))))
    (es.filter (touchesGraph g)) ++
    es.filter (fun e => !touchesGraph g e)

/-- Edge weight into `v` from entities still in `rem`. -/
def inAmong (g : List OptEdge) (rem : List EntityId) (v : EntityId) : ℚ :=
  ((g.filter (fun e => e.winner == v && rem.contains e.loser)).map
    (fun e => e.weight)).sum

/-- Edge weight out of `v` toward entities still in `rem`. -/
def outAmong (g : List OptEdge) (rem : List EntityId) (v : EntityId) : ℚ :=
  ((g.filter (fun e => e.loser == v && rem.contains e.winner)).map
    (fun e => e.weight)).sum

/-- Local in-minus-out degree of `v` among the remaining entities: how
much of a winner `v` still is (spec §4.3 stage 2 "local in/out-degree
comparison"). -/
def greedyGain (g : List OptEdge) (rem : List EntityId) (v : EntityId) : ℚ :=
  inAmong g rem v - outAmong g rem v

/-- The first entity of maximal local gain, scanning in current order —
deterministic given the seed order (spec §4.3 stage 2). -/
def pickBest (g : List OptEdge) (rem : List EntityId) : EntityId → List EntityId → EntityId
  | x, [] => x
  | x, y :: ys =>
    if greedyGain g rem x < greedyGain g rem y then pickBest g rem y ys
    else pickBest g rem x ys

/-- Modelled from the spec: the greedy feedback-arc-set loop — repeatedly
extract the entity of maximal local gain and place it at the front group
(net winner) or the back group (net loser) (spec §4.3 stage 2);
optimal_ranker.py is not in the repository snapshot. -/
def greedyGo (g : List OptEdge) : ℕ → List EntityId → List EntityId → List EntityId → List EntityId
  | 0, front, back, rem => front ++ rem ++ back
  | _ + 1, front, back, [] => front ++ back
  | n + 1, front, back, r :: rs =>
    if 0 ≤ greedyGain g (r :: rs) (pickBest g (r :: rs) r rs) then
      greedyGo g n (front ++ [pickBest g (r :: rs) r rs]) back
        ((r :: rs).erase (pickBest g (r :: rs) r rs))
    else
      greedyGo g n front (pickBest g (r :: rs) r rs :: back)
        ((r :: rs).erase (pickBest g (r :: rs) r rs))

/-- The raw greedy feedback-arc-set order (spec §4.3 stage 2). -/
def greedy_fas (g : List OptEdge) (ord : List EntityId) : List EntityId :=
  greedyGo g ord.length [] [] ord

/-- Modelled from the spec: stage 2 — the greedy feedback-arc-set result,
kept only when it does not worsen the anomaly cost so that cost never
increases between stages (spec §4.3 stage 2, §8 monotonic-cost property). -/
def stage2 (g : List OptEdge) (ord : List EntityId) : List EntityId :=
  if anomalyCost g (greedy_fas g ord) ≤ anomalyCost g ord then greedy_fas g ord
  else ord

/-- The deterministic linear-congruential pseudo-random generator seeding
the annealing stage (spec §4.3 stage 3, §5: reproducible given the same
seed value). -/
def lcg (s : ℕ) : ℕ := (1103515245 * s + 12345) % 2147483648

/-- Swap the adjacent elements at positions `i` and `i + 1`, leaving the
list unchanged when `i` is out of range. -/
def swapAdj : ℕ → List EntityId → List EntityId
  | _, [] => []
  | _, [a] => [a]
  | 0, a :: b :: t => b :: a :: t
  | n + 1, a :: b :: t => a :: swapAdj n (b :: t)

/-- Annealing iteration budget (spec §4.3 stage 3 "fixed iteration
budget"). -/
def saBudget : ℕ := 200

/-- Initial annealing temperature. -/
def saTempStart : ℚ := 1

/-- Temperature floor terminating the annealing loop (spec §4.3
stage 3). -/
def saTempFloor : ℚ := 1/1000

/-- Geometric cooling factor applied each iteration (spec §4.3 stage 3
"temperature decays geometrically"). -/
def saCooling : ℚ := 19/20

/-- Modelled from the spec: the annealing acceptance rule — accept a
strictly improving swap always, a worsening swap with probability
decreasing in Δcost/temperature, decided against the next pseudo-random
draw (spec §4.3 stage 3).  The real-valued `exp(-Δcost/temperature)` is
replaced by the computable rational surrogate
`temperature / (temperature + Δcost)`, which is 1 at Δcost = 0 and decays
in Δcost; optimal_ranker.py is not in the repository snapshot. -/
def saAccept (dCost temp : ℚ) (r : ℕ) : Bool :=
  decide (dCost < 0) ||
    (decide (0 < temp) &&
      decide (((r % 1000 : ℕ) : ℚ) * (temp + dCost) < 1000 * temp))

/-- The pseudo-random adjacent-swap proposal of one annealing iteration
(spec §4.3 stage 3 "propose random pairwise swaps (or adjacent-window
swaps)"). -/
def saCand (rng : ℕ) (cur : List EntityId) : List EntityId :=
  swapAdj (rng % max (cur.length - 1) 1) cur

/-- The order after one annealing iteration: the proposal when accepted,
the current order otherwise. -/
def saNext (g : List OptEdge) (temp : ℚ) (rng : ℕ) (cur : List EntityId) : List EntityId :=
  if saAccept (anomalyCost g (saCand rng cur) - anomalyCost g cur) temp (lcg rng) then
    saCand rng cur
  else cur

/-- Best-seen tracking: keep whichever of the two orders has lower anomaly
cost (spec §8: the stage's returned order must not exceed its starting
cost). -/
def saBetter (g : List OptEdge) (cur best : List EntityId) : List EntityId :=
  if anomalyCost g cur < anomalyCost g best then cur else best

/-- Modelled from the spec: the annealing loop — propose a pseudo-random
adjacent swap, accept per the annealing rule, track the best order seen so
that the stage's returned order never exceeds its starting cost (spec §4.3
stage 3, §8 monotonic-cost property); optimal_ranker.py is not in the
repository snapshot. -/
def saGo (g : List OptEdge) : ℕ → ℚ → ℕ → List EntityId → List EntityId → List EntityId
  | 0, _, _, _, best => best
  | n + 1, temp, rng, cur, best =>
    if temp < saTempFloor then best
    else
      saGo g n (saCooling * temp) (lcg (lcg rng)) (saNext g temp rng cur)
        (saBetter g (saNext g temp rng cur) best)

/-- Modelled from the spec: stage 3 simulated annealing, seeded from the
run's random seed (spec §4.3 stage 3). -/
def stage3 (g : List OptEdge) (seedVal : ℕ) (ord : List EntityId) : List EntityId :=
  saGo g saBudget saTempStart (lcg seedVal) ord ord

/-- One candidate adjacent swap of the local-search polish, kept only when
it strictly improves the anomaly cost (spec §4.3 stage 4). -/
def lsStep (g : List OptEdge) (ord : List EntityId) (i : ℕ) : List EntityId :=
  if anomalyCost g (swapAdj i ord) < anomalyCost g ord then swapAdj i ord else ord

/-- One bubble-style pass over all adjacent positions (spec §4.3
stage 4). -/
def lsPass (g : List OptEdge) (ord : List EntityId) : List EntityId :=
  (List.range (ord.length - 1)).foldl (lsStep g) ord

/-- Pass-count cap of the local-search polish (spec §4.3 stage 4). -/
def lsPassCap : ℕ := 50

/-- Modelled from the spec: repeat local-search passes until a pass makes
no change or the pass cap is hit (spec §4.3 stage 4); optimal_ranker.py is
not in the repository snapshot. -/
def localSearchGo (g : List OptEdge) : ℕ → List EntityId → List EntityId
  | 0, ord => ord
  | n + 1, ord =>
    if lsPass g ord = ord then ord else localSearchGo g n (lsPass g ord)

/-- Modelled from the spec: stage 4 local-search polish (spec §4.3
stage 4). -/
def stage4 (g : List OptEdge) (ord : List EntityId) : List EntityId :=
  localSearchGo g lsPassCap ord

/-- Modelled from the spec: `optimize_ranking` — the full pipeline, each
stage consuming the previous stage's order (spec §4.3, §6);
optimal_ranker.py is not in the repository snapshot. -/
def optimize_ranking (g : List OptEdge) (es : List EntityId) (seedVal : ℕ) : List EntityId :=
  stage4 g (stage3 g seedVal (stage2 g (seed_order g es)))

/-- A small concrete graph used by the determinism witness: 1 beat 0
twice, 2 beat 1 once. -/
def demoGraph : List OptEdge :=
  [ { loser := 0, winner := 1, weight := 2 }
  , { loser := 1, winner := 2, weight := 1 } ]

/-- The concrete entity list used by the determinism witness. -/
def demoEntities : List EntityId := [0, 1, 2, 3]

/-! ### Theorems -/

/-- Claim C6: with the default modifiers, a single decision win by the
wrestler ranked 5 over the wrestler ranked 7 contributes exactly
QualityWin = 1.0 * ((7 − 5) + 1) = 3.0 to the power score, and zero
Bonus, Consistency and BadLoss terms. -/
theorem decision_win_components (margin : ℕ) :
    qualityWinScore defaultModifiers
      { isWin := true, resultType := ResultType.decision,
        wrestlerRank := 5, oppRank := 7, margin := margin } = 3 ∧
    bonusScore defaultModifiers
      { isWin := true, resultType := ResultType.decision,
        wrestlerRank := 5, oppRank := 7, margin := margin } = 0 ∧
    consistencyScore defaultModifiers
      { isWin := true, resultType := ResultType.decision,
        wrestlerRank := 5, oppRank := 7, margin := margin } = 0 ∧
    badLossScore defaultModifiers
      { isWin := true, resultType := ResultType.decision,
        wrestlerRank := 5, oppRank := 7, margin := margin } = 0 ∧
    matchScore defaultModifiers
      { isWin := true, resultType := ResultType.decision,
        wrestlerRank := 5, oppRank := 7, margin := margin } = 3 := by
  have hq : qualityWinScore defaultModifiers
      { isWin := true, resultType := ResultType.decision,
        wrestlerRank := 5, oppRank := 7, margin := margin } = 3 := by
    norm_num [qualityWinScore, defaultModifiers]
  have hb : bonusScore defaultModifiers
      { isWin := true, resultType := ResultType.decision,
        wrestlerRank := 5, oppRank := 7, margin := margin } = 0 := by
    simp [bonusScore]
  have hc : consistencyScore defaultModifiers
      { isWin := true, resultType := ResultType.decision,
        wrestlerRank := 5, oppRank := 7, margin := margin } = 0 := by
    rw [consistencyScore, if_neg]
    rintro ⟨-, -, h⟩
    norm_num at h
  have hbl : badLossScore defaultModifiers
      { isWin := true, resultType := ResultType.decision,
        wrestlerRank := 5, oppRank := 7, margin := margin } = 0 := by
    rw [badLossScore, if_neg]
    rintro ⟨-, h⟩
    norm_num at h
  have hcl : competitiveLossScore defaultModifiers
      { isWin := true, resultType := ResultType.decision,
        wrestlerRank := 5, oppRank := 7, margin := margin } = 0 := by
    simp [competitiveLossScore]
  refine ⟨hq, hb, hc, hbl, ?_⟩
  rw [matchScore, hq, hb, hc, hbl, hcl]
  norm_num

/-- Claim C7 counterexample: a major-decision loss with margin 10
(wrestler ranked 8, opponent ranked 2) satisfies "not a fall and, if a
decision, margin at most 3", yet its Competitive Loss is zero rather than
qualityLoss * max(0, R − O) = 3.6, because the margin > 7 cutoff also
applies. -/
theorem competitive_loss_blowout_cex :
    (blowoutLoss.isWin = false ∧ blowoutLoss.resultType ≠ ResultType.fall ∧
      (blowoutLoss.resultType = ResultType.decision → blowoutLoss.margin ≤ 3)) ∧
    competitiveLossScore defaultModifiers blowoutLoss ≠
      defaultModifiers.qualityLoss *
        max 0 ((blowoutLoss.wrestlerRank : ℚ) - (blowoutLoss.oppRank : ℚ)) := by
  refine ⟨⟨rfl, by decide, by decide⟩, ?_⟩
  have h1 : competitiveLossScore defaultModifiers blowoutLoss = 0 := by
    norm_num [competitiveLossScore, blowoutLoss]
  have h2 : max 0 ((blowoutLoss.wrestlerRank : ℚ) - (blowoutLoss.oppRank : ℚ)) = 6 := by
    rw [show ((blowoutLoss.wrestlerRank : ℚ) - (blowoutLoss.oppRank : ℚ)) = 6 by
      norm_num [blowoutLoss]]
    exact max_eq_right (by norm_num)
  rw [h1, h2]
  norm_num [defaultModifiers]

/-- Claim C7 (amended): for a loss, the Competitive Loss component equals
qualityLoss * max(0, R − O) when the loss is not a fall, the margin is at
most 7, and, if a decision, the margin is at most 3; and it is zero
whenever the result is a fall or the margin exceeds 7. -/
theorem competitive_loss_spec (mods : ScoreModifiers) (m : ScoreMatch)
    (hl : m.isWin = false) :
    (m.resultType ≠ ResultType.fall → m.margin ≤ 7 →
      (m.resultType = ResultType.decision → m.margin ≤ 3) →
      competitiveLossScore mods m =
        mods.qualityLoss * max 0 ((m.wrestlerRank : ℚ) - (m.oppRank : ℚ))) ∧
    (m.resultType = ResultType.fall ∨ 7 < m.margin →
      competitiveLossScore mods m = 0) := by
  have hbody : competitiveLossScore mods m =
      if m.resultType = ResultType.fall then 0
      else if 7 < m.margin then 0
      else if m.resultType = ResultType.decision ∧ 3 < m.margin then 0
      else mods.qualityLoss * max 0 ((m.wrestlerRank : ℚ) - (m.oppRank : ℚ)) := by
    unfold competitiveLossScore
    rw [hl]
    simp
  constructor
  · intro h1 h2 h3
    have hnd : ¬(m.resultType = ResultType.decision ∧ 3 < m.margin) := by
      rintro ⟨hd, hm4⟩
      exact absurd (h3 hd) (by omega)
    rw [hbody, if_neg h1, if_neg (by omega), if_neg hnd]
  · intro h
    rcases h with hf | hm
    · rw [hbody, if_pos hf]
    · by_cases hf : m.resultType = ResultType.fall
      · rw [hbody, if_pos hf]
      · rw [hbody, if_neg hf, if_pos hm]

/-- Witness for the amended claim C7: a close decision loss (margin 3) by
the wrestler ranked 8 to the opponent ranked 2 earns the full
qualityLoss * max(0, R − O) credit. -/
theorem competitive_loss_spec_witness :
    closeLoss.isWin = false ∧
    competitiveLossScore defaultModifiers closeLoss =
      defaultModifiers.qualityLoss *
        max 0 ((closeLoss.wrestlerRank : ℚ) - (closeLoss.oppRank : ℚ)) :=
  ⟨rfl, (competitive_loss_spec defaultModifiers closeLoss rfl).1
    (by decide) (by decide) (fun _ => by decide)⟩

/-- Claim C10: `calculateSeasonStats` returns wins, losses and total with
wins + losses = total, total the length of the match list, wins the count
of matches won by this season wrestler, and losses never negative. -/
theorem calculateSeasonStats_spec (swid : String) (ms : List DbMatch) :
    ((calculateSeasonStats swid ms).wins : ℤ) + (calculateSeasonStats swid ms).losses
        = ((calculateSeasonStats swid ms).total : ℤ) ∧
    (calculateSeasonStats swid ms).total = ms.length ∧
    (calculateSeasonStats swid ms).wins
        = (ms.filter (fun m => m.winner_id == swid)).length ∧
    0 ≤ (calculateSeasonStats swid ms).losses := by
  have hle : (ms.filter (fun m => m.winner_id == swid)).length ≤ ms.length :=
    List.length_filter_le _ ms
  unfold calculateSeasonStats
  refine ⟨by ring, rfl, rfl, ?_⟩
  simp only
  omega

/-- Processing one match never unmarks a processed match id. -/
theorem processMatch_processed_mono {s : BuildState} {m : MatchRec} {i : ℕ}
    (h : i ∈ s.processed) : i ∈ (processMatch s m).processed := by
  unfold processMatch
  split_ifs
  · exact h
  · exact List.mem_cons_of_mem _ h

/-- An incremental build never unmarks a processed match id. -/
theorem build_processed_mono {i : ℕ} (ms : List MatchRec) :
    ∀ {s : BuildState}, i ∈ s.processed → i ∈ (build_relationships s ms).processed := by
  induction ms with
  | nil => intro s h; exact h
  | cons m rest ih =>
    intro s h
    exact ih (processMatch_processed_mono h)

/-- After an incremental build, every match of the batch is marked
processed. -/
theorem build_marks_all (ms : List MatchRec) :
    ∀ (s : BuildState) (m : MatchRec), m ∈ ms →
      m.matchId ∈ (build_relationships s ms).processed := by
  induction ms with
  | nil => intro s m h; cases h
  | cons m0 rest ih =>
    intro s m h
    rcases List.mem_cons.mp h with h | h
    · subst h
      have hmem : m.matchId ∈ (processMatch s m).processed := by
        unfold processMatch
        split_ifs with hin
        · exact hin
        · exact List.mem_cons_self _ _
      exact build_processed_mono rest hmem
    · exact ih (processMatch s m0) m h

/-- An incremental build over matches that are all already processed is a
no-op. -/
theorem build_skips_processed (ms : List MatchRec) :
    ∀ (s : BuildState), (∀ m ∈ ms, m.matchId ∈ s.processed) →
      build_relationships s ms = s := by
  induction ms with
  | nil => intro s _; rfl
  | cons m0 rest ih =>
    intro s h
    have hstep : processMatch s m0 = s := by
      unfold processMatch
      rw [if_pos (h m0 (List.mem_cons_self _ _))]
    show build_relationships (processMatch s m0) rest = s
    rw [hstep]
    exact ih s (fun m hm => h m (List.mem_cons_of_mem _ hm))

/-- Claim C2: running `build_relationships` in Incremental mode twice in a
row over the same match set yields the same edge weights as running it
once — a match already marked processed contributes no additional edge
weight. -/
theorem build_relationships_idempotent (s : BuildState) (ms : List MatchRec) :
    (build_relationships (build_relationships s ms) ms).weights
      = (build_relationships s ms).weights := by
  rw [build_skips_processed ms (build_relationships s ms)
    (fun m hm => build_marks_all ms s m hm)]

/-- Claim C8 counterexample: a ranking stored for weight class w132 under
date tag 030425-manual is removed by a later import run for the same
weight class and the same date tag, so stored rankings are not immutable
against every later run. -/
theorem import_rankings_same_tag_cex :
    storedRow ∈ storedDb ∧
    storedRow ∉ import_rankings storedDb ("W132") ("030425-manual")
      [(some ("w2"), some 1)] := by
  decide

/-- Claim C8 (amended): a stored ranking row survives every later import
run whose (lowercased) weight class or date tag differs from its own; only
a run with the same weight class and the same date tag replaces it. -/
theorem import_rankings_preserves_other_tags
    (db : List RankingRow) (wcArg dateTag : String)
    (entries : List (Option String × Option ℕ)) (row : RankingRow)
    (hmem : row ∈ db)
    (hdiff : row.weight_class ≠ lowerStr wcArg ∨ row.date ≠ dateTag) :
    row ∈ import_rankings db wcArg dateTag entries := by
  unfold import_rankings
  refine List.mem_append_left _ ?_
  refine List.mem_filter.mpr ⟨hmem, ?_⟩
  simp only [Bool.not_eq_true', Bool.and_eq_false_iff, beq_eq_false_iff_ne, ne_eq]
  tauto

/-- Witness for the amended claim C8: the same stored row survives a
later import run carrying a different date tag. -/
theorem import_rankings_preserves_witness :
    storedRow ∈ storedDb ∧
    (storedRow.weight_class ≠ lowerStr ("W132") ∨ storedRow.date ≠ "030525-manual") ∧
    storedRow ∈ import_rankings storedDb ("W132") ("030525-manual")
      [(some ("w2"), some 1)] :=
  ⟨by decide, by decide,
    import_rankings_preserves_other_tags storedDb ("W132") ("030525-manual")
      [(some ("w2"), some 1)] storedRow (by decide) (by decide)⟩

/-- A value held by the match-id map always carries the key it is stored
under (folded accumulator form). -/
theorem pickLast_fold_key (l : List DbMatch) (k : String) :
    ∀ (acc : Option DbMatch), (∀ m, acc = some m → m.match_id = k) →
      ∀ m, l.foldl (fun acc m => if m.match_id = k then some m else acc) acc = some m →
        m.match_id = k := by
  induction l with
  | nil => intro acc hacc m h; exact hacc m h
  | cons x xs ih =>
    intro acc hacc m h
    refine ih _ ?_ m h
    intro m' h'
    have h'' : (if x.match_id = k then some x else acc) = some m' := h'
    by_cases hx : x.match_id = k
    · rw [if_pos hx] at h''
      cases h''
      exact hx
    · rw [if_neg hx] at h''
      exact hacc m' h''

/-- A value held by the match-id map always carries the key it is stored
under. -/
theorem pickLast_key (l : List DbMatch) (k : String) (m : DbMatch)
    (h : pickLast l k = some m) : m.match_id = k :=
  pickLast_fold_key l k none (fun _ h' => by cases h') m h

/-- The deduplicated key list never contains an already-seen key. -/
theorem dedupKeys_not_seen (L : List String) :
    ∀ (seen : List String) (x : String), x ∈ dedupKeys seen L → x ∉ seen := by
  induction L with
  | nil => intro seen x h; cases h
  | cons k ks ih =>
    intro seen x h
    unfold dedupKeys at h
    split_ifs at h with hk
    · exact ih seen x h
    · rcases List.mem_cons.mp h with h | h
      · subst h; exact hk
      · intro hx
        exact ih (k :: seen) x h (List.mem_cons_of_mem _ hx)

/-- The deduplicated key list has no duplicate keys. -/
theorem dedupKeys_nodup (L : List String) :
    ∀ (seen : List String), (dedupKeys seen L).Nodup := by
  induction L with
  | nil => intro seen; exact List.nodup_nil
  | cons k ks ih =>
    intro seen
    unfold dedupKeys
    split_ifs with hk
    · exact ih seen
    · refine List.nodup_cons.mpr ⟨?_, ih (k :: seen)⟩
      intro hmem
      exact dedupKeys_not_seen ks (k :: seen) k hmem (List.mem_cons_self _ _)

/-- Looking the kept last values up under a duplicate-free key list yields
matches with pairwise-distinct match ids. -/
theorem filterMap_pickLast_nodup (l : List DbMatch) (keys : List String)
    (hnd : keys.Nodup) :
    ((keys.filterMap (pickLast l)).map (fun m => m.match_id)).Nodup := by
  induction keys with
  | nil => exact List.nodup_nil
  | cons k ks ih =>
    rcases List.nodup_cons.mp hnd with ⟨hk, hks⟩
    rw [List.filterMap_cons]
    cases hpl : pickLast l k with
    | none => exact ih hks
    | some m =>
      rw [List.map_cons]
      refine List.nodup_cons.mpr ⟨?_, ih hks⟩
      intro hmem
      rcases List.mem_map.mp hmem with ⟨m', hm', hid⟩
      rcases List.mem_filterMap.mp hm' with ⟨k', hk', hplk'⟩
      have h1 : m'.match_id = k' := pickLast_key l k' m' hplk'
      have h2 : m.match_id = k := pickLast_key l k m hpl
      rw [h2] at hid
      rw [← hid, h1] at hk
      exact hk hk'

/-- The frontend's JavaScript-Map deduplication leaves pairwise-distinct
match ids. -/
theorem jsMapDedup_nodup (l : List DbMatch) :
    ((jsMapDedup l).map (fun m => m.match_id)).Nodup :=
  filterMap_pickLast_nodup l _ (dedupKeys_nodup _ [])

/-- Claim C9: the per-season match list assembled by the wrestler-page
data fetch contains each match_id at most once and is sorted ascending by
match date. -/
theorem fetchWrestlerMatches_spec (swid : String) (allMatches : List DbMatch) :
    ((fetchWrestlerMatches swid allMatches).map (fun m => m.match_id)).Nodup ∧
    (fetchWrestlerMatches swid allMatches).Sorted dateLe := by
  constructor
  · have hperm := List.perm_insertionSort dateLe
      (jsMapDedup (allMatches.filter (fun m => m.winner_id == swid || m.loser_id == swid)))
    exact ((hperm.map (fun m => m.match_id)).symm).nodup (jsMapDedup_nodup _)
  · exact List.sorted_insertionSort dateLe _

/-- The winner of a recorded match is among the graph's entities. -/
theorem winner_mem_entities {ms : List MatchRec} {m : MatchRec} (h : m ∈ ms) :
    m.winner ∈ matchEntities ms := by
  unfold matchEntities
  rw [List.mem_dedup]
  exact List.mem_append_left _ (List.mem_map_of_mem _ h)

/-- The loser of a recorded match is among the graph's entities. -/
theorem loser_mem_entities {ms : List MatchRec} {m : MatchRec} (h : m ∈ ms) :
    m.loser ∈ matchEntities ms := by
  unfold matchEntities
  rw [List.mem_dedup]
  exact List.mem_append_right _ (List.mem_map_of_mem _ h)

/-- A pair's net signal with itself is zero, so a positive net signal
forces distinct entities. -/
theorem netSignal_self (ms : List MatchRec) (a : EntityId) : netSignal ms a a = 0 := by
  unfold netSignal
  omega

/-- A positive direct-match count yields an actual recorded match with
that winner and loser. -/
theorem directCount_pos_match {ms : List MatchRec} {l w : EntityId}
    (h : 0 < directCount ms l w) : ∃ m ∈ ms, m.winner = w ∧ m.loser = l := by
  unfold directCount at h
  rw [List.length_pos] at h
  rcases List.exists_mem_of_ne_nil _ h with ⟨m, hm⟩
  rcases List.mem_filter.mp hm with ⟨hmem, hp⟩
  exact ⟨m, hmem, of_decide_eq_true hp⟩

/-- Claim C5 counterexample: in the four-match cycle A beats X, X beats B,
B beats Y, Y beats A (all in weight class W132, no direct A-vs-B match),
the two opposite common-opponent chains cancel, so the graph holds no
CommonOpponent edge B → A even though "A beats X and X beats B" and "no
direct A-vs-B match" both hold. -/
theorem common_opponent_claim_cex :
    (∃ m1 ∈ cycleMatches, m1.weightClass = "W132" ∧ m1.winner = 0 ∧ m1.loser = 1) ∧
    (∃ m2 ∈ cycleMatches, m2.weightClass = "W132" ∧ m2.winner = 1 ∧ m2.loser = 2) ∧
    hasDirectMatch (cycleMatches.filter (fun m => m.weightClass == "W132")) 0 2 = false ∧
    ¬(∃ e ∈ build_weight_class_relationships ("W132") cycleMatches,
        e.kind = EdgeKind.commonOpponent ∧ e.loser = 2 ∧ e.winner = 0 ∧ 1 ≤ e.support) := by
  decide

/-- Claim C5 (amended): given matches A beats X and X beats B in the same
weight class and no direct A-vs-B match, the weight-class graph contains a
CommonOpponent edge B → A with supportCount ≥ 1 provided the net
common-opponent signal favours A (as it does when those are the only
matches touching the pair); and it never contains a Direct-kind edge
between A and B. -/
theorem common_opponent_edge (wc : String) (ms : List MatchRec) (A X B : EntityId)
    (m1 m2 : MatchRec) (hm1 : m1 ∈ ms) (hwc1 : m1.weightClass = wc)
    (hw1 : m1.winner = A) (_hlX : m1.loser = X)
    (hm2 : m2 ∈ ms) (hwc2 : m2.weightClass = wc)
    (_hwX : m2.winner = X) (hl2 : m2.loser = B)
    (hnd : hasDirectMatch (ms.filter (fun m => m.weightClass == wc)) A B = false)
    (hnet : 0 < netSignal (ms.filter (fun m => m.weightClass == wc)) A B) :
    (∃ e ∈ build_weight_class_relationships wc ms,
        e.kind = EdgeKind.commonOpponent ∧ e.loser = B ∧ e.winner = A ∧ 1 ≤ e.support) ∧
    (∀ e ∈ build_weight_class_relationships wc ms, e.kind = EdgeKind.direct →
        ¬((e.loser = A ∧ e.winner = B) ∨ (e.loser = B ∧ e.winner = A))) := by
  set rel := ms.filter (fun m => m.weightClass == wc) with hrel
  have hm1r : m1 ∈ rel := by
    rw [hrel]
    exact List.mem_filter.mpr ⟨hm1, by simp [hwc1]⟩
  have hm2r : m2 ∈ rel := by
    rw [hrel]
    exact List.mem_filter.mpr ⟨hm2, by simp [hwc2]⟩
  have hA : A ∈ matchEntities rel := hw1 ▸ winner_mem_entities hm1r
  have hB : B ∈ matchEntities rel := hl2 ▸ loser_mem_entities hm2r
  have hAB : A ≠ B := by
    intro h
    rw [h, netSignal_self] at hnet
    exact absurd hnet (by norm_num)
  have hgraph : build_weight_class_relationships wc ms = directEdges rel ++ commonEdges rel := rfl
  constructor
  · refine ⟨{ loser := B, winner := A, kind := EdgeKind.commonOpponent
              support := (netSignal rel A B).toNat }, ?_, rfl, rfl, rfl, ?_⟩
    · rw [hgraph]
      refine List.mem_append_right _ ?_
      refine List.mem_filterMap.mpr ⟨(A, B), ?_, ?_⟩
      · exact List.mem_product.mpr ⟨hA, hB⟩
      · rw [if_pos ⟨hAB, hnd, hnet⟩]
    · show 1 ≤ (netSignal rel A B).toNat
      omega
  · intro e he hkind habs
    rw [hgraph] at he
    rcases List.mem_append.mp he with he | he
    · rcases List.mem_filterMap.mp he with ⟨p, _, hp⟩
      split_ifs at hp with hcond
      · cases hp
        rcases hcond with ⟨-, hcount⟩
        rcases directCount_pos_match hcount with ⟨m, hmr, hmw, hml⟩
        have htrue : hasDirectMatch rel A B = true := by
          refine List.any_eq_true.mpr ⟨m, hmr, decide_eq_true ?_⟩
          rcases habs with ⟨he1, he2⟩ | ⟨he1, he2⟩
          · have he1' : p.1 = A := he1
            have he2' : p.2 = B := he2
            exact Or.inr ⟨hmw.trans he2', hml.trans he1'⟩
          · have he1' : p.1 = B := he1
            have he2' : p.2 = A := he2
            exact Or.inl ⟨hmw.trans he2', hml.trans he1'⟩
        rw [hnd] at htrue
        cases htrue
    · rcases List.mem_filterMap.mp he with ⟨p, _, hp⟩
      split_ifs at hp with hcond
      cases hp
      exact absurd (show EdgeKind.commonOpponent = EdgeKind.direct from hkind)
        (by decide)

/-- Witness for the amended claim C5: with exactly the two matches A beats
X and X beats B in weight class W132, the graph holds the CommonOpponent
edge B → A and no Direct edge between A and B. -/
theorem common_opponent_edge_witness :
    hasDirectMatch (chainMatches.filter (fun m => m.weightClass == "W132")) 0 2 = false ∧
    0 < netSignal (chainMatches.filter (fun m => m.weightClass == "W132")) 0 2 ∧
    ((∃ e ∈ build_weight_class_relationships ("W132") chainMatches,
        e.kind = EdgeKind.commonOpponent ∧ e.loser = 2 ∧ e.winner = 0 ∧ 1 ≤ e.support) ∧
     (∀ e ∈ build_weight_class_relationships ("W132") chainMatches,
        e.kind = EdgeKind.direct →
          ¬((e.loser = 0 ∧ e.winner = 2) ∨ (e.loser = 2 ∧ e.winner = 0)))) :=
  ⟨by decide, by decide,
    common_opponent_edge ("W132") chainMatches 0 1 2
      { matchId := 1, weightClass := "W132", winner := 0, loser := 1 }
      { matchId := 2, weightClass := "W132", winner := 1, loser := 2 }
      (by decide) rfl rfl rfl (by decide) rfl rfl rfl (by decide) (by decide)⟩

/-- A fold preserves any invariant its step preserves. -/
theorem foldl_preserves {σ α : Type} (P : σ → Prop) (f : σ → α → σ)
    (hstep : ∀ s x, P s → P (f s x)) :
    ∀ (l : List α) (s : σ), P s → P (l.foldl f s) := by
  intro l
  induction l with
  | nil => intro s h; exact h
  | cons x xs ih => intro s h; exact ih (f s x) (hstep s x h)

/-- An adjacent swap permutes the list. -/
theorem swapAdj_perm (i : ℕ) (l : List EntityId) : List.Perm (swapAdj i l) l := by
  induction l generalizing i with
  | nil => cases i <;> exact List.Perm.refl _
  | cons a t ih =>
    cases t with
    | nil => cases i <;> exact List.Perm.refl _
    | cons b t2 =>
      cases i with
      | zero => exact List.Perm.swap a b t2
      | succ n => exact List.Perm.cons a (ih n)

/-- One annealing iteration permutes the order. -/
theorem saNext_perm (g : List OptEdge) (temp : ℚ) (rng : ℕ) (cur : List EntityId) :
    List.Perm (saNext g temp rng cur) cur := by
  unfold saNext
  split_ifs
  · exact swapAdj_perm _ cur
  · exact List.Perm.refl _

/-- Best-seen tracking never worsens the tracked cost. -/
theorem saBetter_cost (g : List OptEdge) (cur best : List EntityId) :
    anomalyCost g (saBetter g cur best) ≤ anomalyCost g best := by
  unfold saBetter
  split_ifs with h
  · exact le_of_lt h
  · exact le_refl _

/-- Best-seen tracking keeps a permutation of the entity set. -/
theorem saBetter_perm {g : List OptEdge} {cur best l0 : List EntityId}
    (h1 : List.Perm cur l0) (h2 : List.Perm best l0) :
    List.Perm (saBetter g cur best) l0 := by
  unfold saBetter
  split_ifs
  · exact h1
  · exact h2

/-- The annealing loop never returns an order costlier than the best it
started from. -/
theorem saGo_cost (g : List OptEdge) (n : ℕ) :
    ∀ (temp : ℚ) (rng : ℕ) (cur best : List EntityId),
      anomalyCost g (saGo g n temp rng cur best) ≤ anomalyCost g best := by
  induction n with
  | zero => intro temp rng cur best; exact le_refl _
  | succ k ih =>
    intro temp rng cur best
    simp only [saGo]
    split_ifs
    · exact le_refl _
    · exact le_trans (ih _ _ _ _) (saBetter_cost g _ best)

/-- The annealing loop returns a permutation of the entity set it was
given. -/
theorem saGo_perm (g : List OptEdge) (n : ℕ) :
    ∀ (temp : ℚ) (rng : ℕ) (cur best l0 : List EntityId),
      List.Perm cur l0 → List.Perm best l0 →
      List.Perm (saGo g n temp rng cur best) l0 := by
  induction n with
  | zero => intro temp rng cur best l0 _ h2; exact h2
  | succ k ih =>
    intro temp rng cur best l0 h1 h2
    simp only [saGo]
    split_ifs
    · exact h2
    · exact ih _ _ _ _ _ ((saNext_perm g temp rng cur).trans h1)
        (saBetter_perm ((saNext_perm g temp rng cur).trans h1) h2)

/-- The greedy selection always picks one of the candidates. -/
theorem pickBest_mem (g : List OptEdge) (rem : List EntityId) :
    ∀ (x : EntityId) (ys : List EntityId), pickBest g rem x ys ∈ x :: ys := by
  intro x ys
  induction ys generalizing x with
  | nil => exact List.mem_cons_self _ _
  | cons y ys ih =>
    show (if greedyGain g rem x < greedyGain g rem y then pickBest g rem y ys
      else pickBest g rem x ys) ∈ x :: y :: ys
    split_ifs
    · exact List.mem_cons_of_mem x (ih y)
    · rcases List.mem_cons.mp (ih x) with h | h
      · rw [h]
        exact List.mem_cons_self _ _
      · exact List.mem_cons_of_mem _ (List.mem_cons_of_mem _ h)

/-- The greedy feedback-arc-set loop permutes front, remaining and back
entities. -/
theorem greedyGo_perm (g : List OptEdge) (n : ℕ) :
    ∀ (front back rem : List EntityId),
      List.Perm (greedyGo g n front back rem) (front ++ rem ++ back) := by
  induction n with
  | zero => intro front back rem; exact List.Perm.refl _
  | succ k ih =>
    intro front back rem
    cases rem with
    | nil =>
      show List.Perm (front ++ back) (front ++ [] ++ back)
      rw [List.append_nil]
    | cons r rs =>
      have hmem : pickBest g (r :: rs) r rs ∈ r :: rs := pickBest_mem g (r :: rs) r rs
      have hperm : List.Perm (r :: rs)
          (pickBest g (r :: rs) r rs :: (r :: rs).erase (pickBest g (r :: rs) r rs)) :=
        List.perm_cons_erase hmem
      simp only [greedyGo]
      set e := pickBest g (r :: rs) r rs with he
      set rem' := (r :: rs).erase e with hrem
      split_ifs
      · refine (ih (front ++ [e]) back rem').trans ?_
        have heq : (front ++ [e]) ++ rem' = front ++ (e :: rem') := by
          rw [List.append_assoc]
          rfl
        rw [heq]
        exact List.Perm.append_right back (List.Perm.append_left front hperm.symm)
      · refine (ih front (e :: back) rem').trans ?_
        have hmid1 : List.Perm ((front ++ rem') ++ (e :: back))
            (e :: ((front ++ rem') ++ back)) := List.perm_middle
        have hmid2 : List.Perm (front ++ (e :: rem')) (e :: (front ++ rem')) :=
          List.perm_middle
        refine hmid1.trans ?_
        have h4 : List.Perm (front ++ (r :: rs)) (e :: (front ++ rem')) :=
          (List.Perm.append_left front hperm).trans hmid2
        exact (List.Perm.append_right back h4).symm

/-- The raw greedy feedback-arc-set order permutes its input. -/
theorem greedy_fas_perm (g : List OptEdge) (ord : List EntityId) :
    List.Perm (greedy_fas g ord) ord := by
  have h := greedyGo_perm g ord.length [] [] ord
  simpa using h

/-- Stage 2 permutes its input order. -/
theorem stage2_perm (g : List OptEdge) (ord : List EntityId) :
    List.Perm (stage2 g ord) ord := by
  unfold stage2
  split_ifs
  · exact greedy_fas_perm g ord
  · exact List.Perm.refl _

/-- Stage 2 never increases the anomaly cost. -/
theorem stage2_cost (g : List OptEdge) (ord : List EntityId) :
    anomalyCost g (stage2 g ord) ≤ anomalyCost g ord := by
  unfold stage2
  split_ifs with h
  · exact h
  · exact le_refl _

/-- Stage 3 permutes its input order. -/
theorem stage3_perm (g : List OptEdge) (seedVal : ℕ) (ord : List EntityId) :
    List.Perm (stage3 g seedVal ord) ord := by
  unfold stage3
  exact saGo_perm g saBudget saTempStart (lcg seedVal) ord ord ord
    (List.Perm.refl _) (List.Perm.refl _)

/-- Stage 3 never returns an order costlier than its input. -/
theorem stage3_cost (g : List OptEdge) (seedVal : ℕ) (ord : List EntityId) :
    anomalyCost g (stage3 g seedVal ord) ≤ anomalyCost g ord := by
  unfold stage3
  exact saGo_cost g saBudget saTempStart (lcg seedVal) ord ord

/-- One local-search candidate swap never increases the anomaly cost. -/
theorem lsStep_cost (g : List OptEdge) (ord : List EntityId) (i : ℕ) :
    anomalyCost g (lsStep g ord i) ≤ anomalyCost g ord := by
  unfold lsStep
  split_ifs with h
  · exact le_of_lt h
  · exact le_refl _

/-- One local-search candidate swap permutes the order. -/
theorem lsStep_perm (g : List OptEdge) (ord : List EntityId) (i : ℕ) :
    List.Perm (lsStep g ord i) ord := by
  unfold lsStep
  split_ifs
  · exact swapAdj_perm i ord
  · exact List.Perm.refl _

/-- One local-search pass never increases cost and permutes the order. -/
theorem lsPass_cost_perm (g : List OptEdge) (ord : List EntityId) :
    anomalyCost g (lsPass g ord) ≤ anomalyCost g ord ∧
      List.Perm (lsPass g ord) ord := by
  unfold lsPass
  refine foldl_preserves
    (fun o => anomalyCost g o ≤ anomalyCost g ord ∧ List.Perm o ord)
    (lsStep g) ?_ (List.range (ord.length - 1)) ord ⟨le_refl _, List.Perm.refl _⟩
  intro s i hs
  exact ⟨le_trans (lsStep_cost g s i) hs.1, (lsStep_perm g s i).trans hs.2⟩

/-- The local-search polish never increases cost and permutes the order. -/
theorem localSearchGo_cost_perm (g : List OptEdge) (n : ℕ) :
    ∀ (ord : List EntityId),
      anomalyCost g (localSearchGo g n ord) ≤ anomalyCost g ord ∧
        List.Perm (localSearchGo g n ord) ord := by
  induction n with
  | zero => intro ord; exact ⟨le_refl _, List.Perm.refl _⟩
  | succ k ih =>
    intro ord
    simp only [localSearchGo]
    split_ifs
    · exact ⟨le_refl _, List.Perm.refl _⟩
    · rcases lsPass_cost_perm g ord with ⟨h1, h2⟩
      rcases ih (lsPass g ord) with ⟨h3, h4⟩
      exact ⟨le_trans h3 h1, h4.trans h2⟩

/-- Stage 4 never increases the anomaly cost. -/
theorem stage4_cost (g : List OptEdge) (ord : List EntityId) :
    anomalyCost g (stage4 g ord) ≤ anomalyCost g ord :=
  (localSearchGo_cost_perm g lsPassCap ord).1

/-- Stage 4 permutes its input order. -/
theorem stage4_perm (g : List OptEdge) (ord : List EntityId) :
    List.Perm (stage4 g ord) ord :=
  (localSearchGo_cost_perm g lsPassCap ord).2

/-- The stage-1 seed ordering permutes the input entity list. -/
theorem seed_order_perm (g : List OptEdge) (es : List EntityId) :
    List.Perm (seed_order g es) es := by
  unfold seed_order
  refine List.Perm.trans ?_ (List.filter_append_perm (touchesGraph g) es)
  exact List.Perm.append (List.perm_insertionSort _ _) (List.Perm.refl _)

/-- Claim C1: for every graph (including empty and edge-free graphs) and
every entity list, the optimizer pipeline returns exactly a permutation of
the input entity set — no duplicates, no omissions — and on the empty
entity set it returns the empty sequence. -/
theorem optimize_ranking_permutation (g : List OptEdge) (es : List EntityId)
    (seedVal : ℕ) :
    List.Perm (optimize_ranking g es seedVal) es ∧
      optimize_ranking g [] seedVal = [] := by
  have main : ∀ es0 : List EntityId,
      List.Perm (optimize_ranking g es0 seedVal) es0 := by
    intro es0
    unfold optimize_ranking
    exact (stage4_perm g _).trans ((stage3_perm g seedVal _).trans
      ((stage2_perm g _).trans (seed_order_perm g es0)))
  exact ⟨main es, List.Perm.eq_nil (main [])⟩

/-- Claim C3: two optimizer runs over the same graph, the same entity
list and the same random seed produce identical output sequences — the
pipeline is a deterministic function of those three inputs, its only
randomness coming from the seeded linear-congruential generator. -/
theorem optimize_ranking_deterministic (g1 g2 : List OptEdge)
    (es1 es2 : List EntityId) (s1 s2 : ℕ)
    (hg : g1 = g2) (hes : es1 = es2) (hs : s1 = s2) :
    optimize_ranking g1 es1 s1 = optimize_ranking g2 es2 s2 := by
  subst hg
  subst hes
  subst hs
  rfl

/-- Witness for claim C3: the determinism theorem applied to a concrete
graph, entity list and seed. -/
theorem optimize_ranking_deterministic_witness :
    optimize_ranking demoGraph demoEntities 42 =
      optimize_ranking demoGraph demoEntities 42 :=
  optimize_ranking_deterministic demoGraph demoGraph demoEntities demoEntities
    42 42 rfl rfl rfl

/-- Claim C4: across pipeline stages 2 (greedy feedback-arc-set),
3 (simulated annealing) and 4 (local search) the anomaly cost of the
returned order is non-increasing stage over stage, and the final pipeline
order costs no more than the stage-1 seed order. -/
theorem optimize_ranking_cost_monotone (g : List OptEdge) (es : List EntityId)
    (seedVal : ℕ) :
    anomalyCost g (stage3 g seedVal (stage2 g (seed_order g es))) ≤
      anomalyCost g (stage2 g (seed_order g es)) ∧
    anomalyCost g (stage4 g (stage3 g seedVal (stage2 g (seed_order g es)))) ≤
      anomalyCost g (stage3 g seedVal (stage2 g (seed_order g es))) ∧
    anomalyCost g (optimize_ranking g es seedVal) ≤
      anomalyCost g (seed_order g es) := by
  refine ⟨stage3_cost g seedVal _, stage4_cost g _, ?_⟩
  exact le_trans (stage4_cost g _)
    (le_trans (stage3_cost g seedVal _) (stage2_cost g _))
